import Mathlib

/-!
Verification of the Game Boy DMG emulator core (Rust sources under
`src/src/emulator/`) against its natural-language specification.

The Rust code is shallowly embedded: fixed-size byte arrays and `Vec<u8>`
become a `Bytes` structure (a total content function together with its
size; the indexing operation is partial, mirroring Rust's panic on an
out-of-bounds index), machine integers become `Nat`/`Int` with explicit
reductions modulo `2^w` at the points where the Rust code wraps, and
fallible operations return `Option` (with `none` standing for an error
return or a panic).
-/

set_option maxRecDepth 100000

namespace GB

/-- Embedding of a Rust byte array / `Vec<u8>`: contents as a total
function together with the physical size. -/
structure Bytes where
  data : Nat → Nat
  size : Nat

/-- `b[i]` for reads: `some` byte when `i` is in bounds, `none` (panic)
otherwise. -/
def Bytes.get (b : Bytes) (i : Nat) : Option Nat :=
  if i < b.size then some (b.data i) else none

/-- `b[i] = v` for writes: `some` updated array when `i` is in bounds,
`none` (panic) otherwise. -/
def Bytes.set (b : Bytes) (i v : Nat) : Option Bytes :=
  if i < b.size then some ⟨fun j => if j = i then v else b.data j, b.size⟩ else none

/-- All-zero byte array of a given size. -/
def Bytes.zeros (n : Nat) : Bytes := ⟨fun _ => 0, n⟩

/-! ## MMU (`src/src/emulator/memory.rs`)

`Mmu` owns fixed-size backing stores: `rom_bank_0`/`rom_bank_n`
(`[u8; 0x4000]` each), `vram`/`external_ram`/`wram` (`[u8; 0x2000]`),
`oam` (`[u8; 0xA0]`), `io_registers` (`[u8; 0x80]`), `hram`
(`[u8; 0x7F]`) and the single `interrupt_enable` byte.  Each array is
embedded as a content function; its physical size appears as the bound
check at every indexing site, exactly where Rust would panic. -/
structure Mmu where
  rom_bank_0 : Nat → Nat
  rom_bank_n : Nat → Nat
  vram : Nat → Nat
  external_ram : Nat → Nat
  wram : Nat → Nat
  oam : Nat → Nat
  io_registers : Nat → Nat
  hram : Nat → Nat
  interrupt_enable : Nat

/-- `Mmu::new`: every backing store zeroed. -/
def Mmu.new : Mmu :=
  { rom_bank_0 := fun _ => 0
    rom_bank_n := fun _ => 0
    vram := fun _ => 0
    external_ram := fun _ => 0
    wram := fun _ => 0
    oam := fun _ => 0
    io_registers := fun _ => 0
    hram := fun _ => 0
    interrupt_enable := 0 }

/-- Guarded array read: index `i` into a store of physical size `sz`. -/
def arrGet (sz : Nat) (f : Nat → Nat) (i : Nat) : Option Nat :=
  if i < sz then some (f i) else none

/-- `Mmu::read_byte`: the `match` over the address ranges of
`memory.rs`.  Addresses above `0xFFFF` cannot occur for a `u16`; they
fall off the end as `none`. -/
def Mmu.read_byte (m : Mmu) (address : Nat) : Option Nat :=
  if address ≤ 0x3FFF then arrGet 0x4000 m.rom_bank_0 (address - 0x0000)
  else if address ≤ 0x7FFF then arrGet 0x4000 m.rom_bank_n (address - 0x4000)
  else if address ≤ 0x9FFF then arrGet 0x2000 m.vram (address - 0x8000)
  else if address ≤ 0xBFFF then arrGet 0x2000 m.external_ram (address - 0xA000)
  else if address ≤ 0xDFFF then arrGet 0x2000 m.wram (address - 0xC000)
  else if address ≤ 0xFDFF then arrGet 0x2000 m.wram (address - 0xE000)
  else if address ≤ 0xFE9F then arrGet 0xA0 m.oam (address - 0xFE00)
  else if address ≤ 0xFEFF then some 0xFF
  else if address ≤ 0xFF7F then arrGet 0x80 m.io_registers (address - 0xFF00)
  else if address ≤ 0xFFFE then arrGet 0x7F m.hram (address - 0xFF80)
  else if address = 0xFFFF then some m.interrupt_enable
  else none

/-- Guarded array write. -/
def arrSet (sz : Nat) (f : Nat → Nat) (i v : Nat) : Option (Nat → Nat) :=
  if i < sz then some (fun j => if j = i then v else f j) else none

/-- `Mmu::write_byte`: writes into the two ROM windows and the unused
hole are ignored (the arms are empty in the source); every other arm
stores into its backing array. -/
def Mmu.write_byte (m : Mmu) (address value : Nat) : Option Mmu :=
  if address ≤ 0x3FFF then some m
  else if address ≤ 0x7FFF then some m
  else if address ≤ 0x9FFF then
    (arrSet 0x2000 m.vram (address - 0x8000) value).map fun f => { m with vram := f }
  else if address ≤ 0xBFFF then
    (arrSet 0x2000 m.external_ram (address - 0xA000) value).map fun f => { m with external_ram := f }
  else if address ≤ 0xDFFF then
    (arrSet 0x2000 m.wram (address - 0xC000) value).map fun f => { m with wram := f }
  else if address ≤ 0xFDFF then
    (arrSet 0x2000 m.wram (address - 0xE000) value).map fun f => { m with wram := f }
  else if address ≤ 0xFE9F then
    (arrSet 0xA0 m.oam (address - 0xFE00) value).map fun f => { m with oam := f }
  else if address ≤ 0xFEFF then some m
  else if address ≤ 0xFF7F then
    (arrSet 0x80 m.io_registers (address - 0xFF00) value).map fun f => { m with io_registers := f }
  else if address ≤ 0xFFFE then
    (arrSet 0x7F m.hram (address - 0xFF80) value).map fun f => { m with hram := f }
  else if address = 0xFFFF then some { m with interrupt_enable := value }
  else none

/-- `Mmu::load_rom`: rejects inputs shorter than `0x4000` bytes (one
bank), copies the first 16KB into `rom_bank_0`, and copies the second
16KB into `rom_bank_n` only when at least `0x8000` bytes are present. -/
def Mmu.load_rom (m : Mmu) (rom_data : Bytes) : Option Mmu :=
  if rom_data.size < 0x4000 then none
  else
    let m1 := { m with rom_bank_0 := fun i => rom_data.data i }
    if 0x8000 ≤ rom_data.size then
      some { m1 with rom_bank_n := fun i => rom_data.data (0x4000 + i) }
    else some m1

/-! ## Cartridge and memory bank controllers
(`src/src/emulator/cartridge.rs`)

`Vec<u8>` fields (`rom_data`, `ram_data`) are embedded as `Bytes`;
`u8` parameters and stored bytes are `Nat` values below `0x100`.
Indexing a `Bytes` out of range yields `none`, the embedding of a Rust
panic.  `Cartridge::new` / `parse_header` / `determine_mbc_type`
return `Option` with `none` for an `Err(..)` return (the embedding
does not distinguish the `InvalidRom` and `UnsupportedCartridge`
error variants). -/

inductive MbcType where
  | None
  | Mbc1
  | Mbc2
  | Mbc3
  | Mbc5
  | Unsupported (code : Nat)
deriving DecidableEq

/-- Header fields; the `title` is kept as the list of bytes before the
first `0` of `rom[0x134..0x144]` (the source converts those same bytes
to a `String`). -/
structure CartridgeHeader where
  title : List Nat
  cartridge_type : Nat
  rom_size : Nat
  ram_size : Nat
  destination_code : Nat
  old_licensee_code : Nat
  mask_rom_version : Nat
  header_checksum : Nat
  global_checksum : Nat

/-- `u8::wrapping_sub` for byte values. -/
def wsub8 (a b : Nat) : Nat := (a % 0x100 + 0x100 - b % 0x100) % 0x100

/-- The header checksum recomputed by `parse_header`: starting from 0,
for each byte at offsets `0x134..0x14D` subtract the byte and then 1,
both wrapping modulo 256
(`checksum = checksum.wrapping_sub(rom_data[i]).wrapping_sub(1)`). -/
def header_checksum_calc (rom : Bytes) : Nat :=
  ((List.range 0x19).map fun i => rom.data (0x134 + i)).foldl
    (fun c b => wsub8 (wsub8 c b) 1) 0

/-- `Cartridge::parse_header`.  The recomputed checksum is compared
with the stored byte only to emit a `log::warn!`; the function's
result does not depend on the comparison, so the embedding returns the
header unconditionally once the length check passed. -/
def Cartridge.parse_header (rom_data : Bytes) : Option CartridgeHeader :=
  if rom_data.size < 0x150 then none
  else
    let title_bytes := (List.range 0x10).map fun i => rom_data.data (0x134 + i)
    some
      { title := title_bytes.takeWhile fun b => b != 0
        cartridge_type := rom_data.data 0x147
        rom_size := rom_data.data 0x148
        ram_size := rom_data.data 0x149
        destination_code := rom_data.data 0x14A
        old_licensee_code := rom_data.data 0x14B
        mask_rom_version := rom_data.data 0x14C
        header_checksum := rom_data.data 0x14D
        global_checksum := (rom_data.data 0x14E <<< 8) ||| rom_data.data 0x14F }

/-- `Cartridge::determine_mbc_type`: `none` embeds
`Err(UnsupportedCartridge(..))`. -/
def Cartridge.determine_mbc_type (cartridge_type : Nat) : Option MbcType :=
  if cartridge_type = 0x00 then some .None
  else if 0x01 ≤ cartridge_type ∧ cartridge_type ≤ 0x03 then some .Mbc1
  else if 0x05 ≤ cartridge_type ∧ cartridge_type ≤ 0x06 then some .Mbc2
  else if 0x0F ≤ cartridge_type ∧ cartridge_type ≤ 0x13 then some .Mbc3
  else if 0x19 ≤ cartridge_type ∧ cartridge_type ≤ 0x1E then some .Mbc5
  else none

/-- `Cartridge::get_ram_size`. -/
def Cartridge.get_ram_size (ram_size_code : Nat) : Nat :=
  match ram_size_code with
  | 0x00 => 0
  | 0x01 => 2 * 1024
  | 0x02 => 8 * 1024
  | 0x03 => 32 * 1024
  | 0x04 => 128 * 1024
  | 0x05 => 64 * 1024
  | _ => 0

structure Cartridge where
  header : CartridgeHeader
  mbc_type : MbcType
  rom_data : Bytes
  ram_data : Bytes
  current_rom_bank : Nat
  current_ram_bank : Nat
  ram_enabled : Bool
  banking_mode : Nat

/-- `Cartridge::new`. -/
def Cartridge.new (rom_data : Bytes) : Option Cartridge :=
  if rom_data.size < 0x8000 then none
  else
    (Cartridge.parse_header rom_data).bind fun header =>
    (Cartridge.determine_mbc_type header.cartridge_type).map fun mbc_type =>
      { header := header
        mbc_type := mbc_type
        rom_data := rom_data
        ram_data := Bytes.zeros (Cartridge.get_ram_size header.ram_size)
        current_rom_bank := 1
        current_ram_bank := 0
        ram_enabled := false
        banking_mode := 0 }

/-- `Cartridge::read`: the switchable-bank and external-RAM arms index
`rom_data`/`ram_data` at `current_*_bank * bank_size + local_address`
with no masking of the bank index; `Bytes.get` yields `none` exactly
where the Rust `Vec` index would panic. -/
def Cartridge.read (c : Cartridge) (address : Nat) : Option Nat :=
  if address ≤ 0x3FFF then c.rom_data.get address
  else if address ≤ 0x7FFF then
    let bank_offset := c.current_rom_bank * 0x4000
    let local_address := address - 0x4000
    c.rom_data.get (bank_offset + local_address)
  else if 0xA000 ≤ address ∧ address ≤ 0xBFFF then
    if c.ram_enabled ∧ c.ram_data.size ≠ 0 then
      let bank_offset := c.current_ram_bank * 0x2000
      let local_address := address - 0xA000
      c.ram_data.get (bank_offset + local_address)
    else some 0xFF
  else some 0xFF

/-- `Cartridge::handle_mbc1_write`. -/
def Cartridge.handle_mbc1_write (c : Cartridge) (address value : Nat) : Option Cartridge :=
  if address ≤ 0x1FFF then
    some { c with ram_enabled := value &&& 0x0F == 0x0A }
  else if address ≤ 0x3FFF then
    let bank := value &&& 0x1F
    some { c with current_rom_bank := if bank = 0 then 1 else bank }
  else if address ≤ 0x5FFF then
    if c.banking_mode = 0 then
      let upper_bits := (value &&& 0x03) <<< 5
      some { c with current_rom_bank := (c.current_rom_bank &&& 0x1F) ||| upper_bits }
    else
      some { c with current_ram_bank := value &&& 0x03 }
  else if address ≤ 0x7FFF then
    some { c with banking_mode := value &&& 0x01 }
  else if 0xA000 ≤ address ∧ address ≤ 0xBFFF then
    if c.ram_enabled ∧ c.ram_data.size ≠ 0 then
      (c.ram_data.set (c.current_ram_bank * 0x2000 + (address - 0xA000)) value).map
        fun r => { c with ram_data := r }
    else some c
  else some c

/-- `Cartridge::handle_mbc2_write`. -/
def Cartridge.handle_mbc2_write (c : Cartridge) (address value : Nat) : Option Cartridge :=
  if address ≤ 0x3FFF then
    if address &&& 0x100 = 0 then
      some { c with ram_enabled := value &&& 0x0F == 0x0A }
    else
      let bank := value &&& 0x0F
      some { c with current_rom_bank := if bank = 0 then 1 else bank }
  else if 0xA000 ≤ address ∧ address ≤ 0xBFFF then
    if c.ram_enabled ∧ c.ram_data.size ≠ 0 then
      let local_address := address - 0xA000
      if local_address < 0x200 then
        (c.ram_data.set local_address (value &&& 0x0F)).map fun r => { c with ram_data := r }
      else some c
    else some c
  else some c

/-- `Cartridge::handle_mbc3_write`. -/
def Cartridge.handle_mbc3_write (c : Cartridge) (address value : Nat) : Option Cartridge :=
  if address ≤ 0x1FFF then
    some { c with ram_enabled := value &&& 0x0F == 0x0A }
  else if address ≤ 0x3FFF then
    let bank := value &&& 0x7F
    some { c with current_rom_bank := if bank = 0 then 1 else bank }
  else if address ≤ 0x5FFF then
    if value ≤ 0x03 then some { c with current_ram_bank := value } else some c
  else if address ≤ 0x7FFF then
    some c
  else if 0xA000 ≤ address ∧ address ≤ 0xBFFF then
    if c.ram_enabled ∧ c.ram_data.size ≠ 0 then
      (c.ram_data.set (c.current_ram_bank * 0x2000 + (address - 0xA000)) value).map
        fun r => { c with ram_data := r }
    else some c
  else some c

/-- `Cartridge::handle_mbc5_write`. -/
def Cartridge.handle_mbc5_write (c : Cartridge) (address value : Nat) : Option Cartridge :=
  if address ≤ 0x1FFF then
    some { c with ram_enabled := value &&& 0x0F == 0x0A }
  else if address ≤ 0x2FFF then
    some { c with current_rom_bank := (c.current_rom_bank &&& 0x100) ||| value }
  else if address ≤ 0x3FFF then
    some { c with current_rom_bank := (c.current_rom_bank &&& 0xFF) ||| ((value &&& 0x01) <<< 8) }
  else if address ≤ 0x5FFF then
    some { c with current_ram_bank := value &&& 0x0F }
  else if 0xA000 ≤ address ∧ address ≤ 0xBFFF then
    if c.ram_enabled ∧ c.ram_data.size ≠ 0 then
      (c.ram_data.set (c.current_ram_bank * 0x2000 + (address - 0xA000)) value).map
        fun r => { c with ram_data := r }
    else some c
  else some c

/-- `Cartridge::write`: dispatch on the MBC variant. -/
def Cartridge.write (c : Cartridge) (address value : Nat) : Option Cartridge :=
  match c.mbc_type with
  | .None => some c
  | .Mbc1 => c.handle_mbc1_write address value
  | .Mbc2 => c.handle_mbc2_write address value
  | .Mbc3 => c.handle_mbc3_write address value
  | .Mbc5 => c.handle_mbc5_write address value
  | .Unsupported _ => some c

/-- A minimal 32KB MBC1 image: cartridge-type byte `0x01`, all other
bytes zero. -/
def img32 : Bytes := ⟨fun i => if i = 0x147 then 0x01 else 0, 0x8000⟩

/-- The cartridge built from `img32`. -/
def cart32 : Cartridge :=
  { header :=
      { title := []
        cartridge_type := 0x01
        rom_size := 0
        ram_size := 0
        destination_code := 0
        old_licensee_code := 0
        mask_rom_version := 0
        header_checksum := 0
        global_checksum := 0 }
    mbc_type := .Mbc1
    rom_data := img32
    ram_data := Bytes.zeros 0
    current_rom_bank := 1
    current_ram_bank := 0
    ram_enabled := false
    banking_mode := 0 }

/-! ## PPU (`src/src/emulator/ppu.rs`)

The frame buffer (`[u8; 160*144]`) is embedded as a content function;
`scanline` (`u8`) and `cycles` (`u32`) as `Nat` — both are reset by
`step` far below their type bounds, so no wrapping point is ever
reached. -/

inductive PpuMode where
  | HBlank
  | VBlank
  | OamScan
  | Drawing
deriving DecidableEq

structure Ppu where
  frame_buffer : Nat → Nat
  scanline : Nat
  mode : PpuMode
  cycles : Nat
  lcdc : Nat
  stat : Nat
  scroll_x : Nat
  scroll_y : Nat
  window_x : Nat
  window_y : Nat
  bg_palette : Nat
  obj_palette_0 : Nat
  obj_palette_1 : Nat

/-- `Ppu::new`. -/
def Ppu.new : Ppu :=
  { frame_buffer := fun _ => 0
    scanline := 0
    mode := .OamScan
    cycles := 0
    lcdc := 0x91
    stat := 0x00
    scroll_x := 0
    scroll_y := 0
    window_x := 0
    window_y := 0
    bg_palette := 0xFC
    obj_palette_0 := 0xFF
    obj_palette_1 := 0xFF }

/-- `Ppu::render_background`: the body is empty in the source
("rendering logic will be implemented here"). -/
def Ppu.render_background (p : Ppu) : Ppu := p

/-- `Ppu::render_window`: empty body in the source. -/
def Ppu.render_window (p : Ppu) : Ppu := p

/-- `Ppu::render_sprites`: empty body in the source. -/
def Ppu.render_sprites (p : Ppu) : Ppu := p

/-- `Ppu::render_scanline`: early return above line 143, clear the
160-pixel line, then background/window/sprite layers gated on `lcdc`
bits 0, 5 and 1. -/
def Ppu.render_scanline (p : Ppu) : Ppu :=
  if 144 ≤ p.scanline then p
  else
    let line_start := p.scanline * 160
    let p1 := { p with frame_buffer := fun idx =>
      if line_start ≤ idx ∧ idx < line_start + 160 then 0 else p.frame_buffer idx }
    let p2 := if p1.lcdc &&& 0x01 ≠ 0 then p1.render_background else p1
    let p3 := if p2.lcdc &&& 0x20 ≠ 0 then p2.render_window else p2
    if p3.lcdc &&& 0x02 ≠ 0 then p3.render_sprites else p3

/-- `Ppu::step`: one cycle of the mode state machine. -/
def Ppu.step (p0 : Ppu) : Ppu :=
  let p := { p0 with cycles := p0.cycles + 1 }
  match p.mode with
  | .OamScan =>
      if 80 ≤ p.cycles then { p with cycles := 0, mode := .Drawing } else p
  | .Drawing =>
      if 172 ≤ p.cycles then
        Ppu.render_scanline { p with cycles := 0, mode := .HBlank }
      else p
  | .HBlank =>
      if 204 ≤ p.cycles then
        let p' := { p with cycles := 0, scanline := p.scanline + 1 }
        if 144 ≤ p'.scanline then { p' with mode := .VBlank }
        else { p' with mode := .OamScan }
      else p
  | .VBlank =>
      if 456 ≤ p.cycles then
        let p' := { p with cycles := 0, scanline := p.scanline + 1 }
        if 154 ≤ p'.scanline then { p' with scanline := 0, mode := .OamScan }
        else p'
      else p

/-- `n` iterations of `Ppu::step`. -/
def Ppu.stepN : Nat → Ppu → Ppu
  | 0, p => p
  | n + 1, p => Ppu.stepN n p.step

/-- The timing fields of a `Ppu` state. -/
structure PpuT where
  scanline : Nat
  mode : PpuMode
  cycles : Nat
deriving DecidableEq

/-- Projection of a `Ppu` state onto its timing fields. -/
def Ppu.toT (p : Ppu) : PpuT := ⟨p.scanline, p.mode, p.cycles⟩

/-- `Ppu::step` restricted to the timing fields (the rendering calls
touch only the frame buffer). -/
def stepT (t : PpuT) : PpuT :=
  let p : PpuT := ⟨t.scanline, t.mode, t.cycles + 1⟩
  match p.mode with
  | .OamScan =>
      if 80 ≤ p.cycles then ⟨p.scanline, .Drawing, 0⟩ else p
  | .Drawing =>
      if 172 ≤ p.cycles then ⟨p.scanline, .HBlank, 0⟩ else p
  | .HBlank =>
      if 204 ≤ p.cycles then
        if 144 ≤ p.scanline + 1 then ⟨p.scanline + 1, .VBlank, 0⟩
        else ⟨p.scanline + 1, .OamScan, 0⟩
      else p
  | .VBlank =>
      if 456 ≤ p.cycles then
        if 154 ≤ p.scanline + 1 then ⟨0, .OamScan, 0⟩
        else ⟨p.scanline + 1, .VBlank, 0⟩
      else p

/-- `n` iterations of `stepT`. -/
def stepTN : Nat → PpuT → PpuT
  | 0, t => t
  | n + 1, t => stepTN n (stepT t)

/-! ## APU (`src/src/emulator/apu.rs`)

`i16` results of the channel mixers are wrapped explicitly to the
two's-complement range (`i16wrap`); the `i32` mixing arithmetic cannot
overflow.  `audio_buffer` (`[i16; 1024]`) is a content function with
the bound check at the indexing site; a `none` from `generate_sample`
or a channel's `get_sample` is a Rust panic (out-of-bounds index). -/

/-- Two's-complement wrap-around to the `i16` range. -/
def i16wrap (x : Int) : Int := (x + 0x8000) % 0x10000 - 0x8000

/-- `SAMPLE_RATE`. -/
def SAMPLE_RATE : Nat := 44100

/-- `BUFFER_SIZE`. -/
def BUFFER_SIZE : Nat := 1024

structure SquareChannel where
  enabled : Bool
  frequency : Nat
  duty_cycle : Nat
  volume : Nat
  envelope_period : Nat
  envelope_direction : Bool
  length : Nat
  length_enabled : Bool
  phase : Nat
  envelope_counter : Nat
  current_volume : Nat

/-- `SquareChannel::new`. -/
def SquareChannel.new : SquareChannel :=
  { enabled := false
    frequency := 0
    duty_cycle := 0
    volume := 0
    envelope_period := 0
    envelope_direction := false
    length := 0
    length_enabled := false
    phase := 0
    envelope_counter := 0
    current_volume := 0 }

/-- `SquareChannel::get_sample`: the duty-pattern table has exactly 4
entries and `duty_cycle` indexes it unmasked (`none` = index panic);
the pattern bit index is `(phase >> 16) & 7`; the phase advances by
`frequency * 8` with `u32` wrap-around. -/
def SquareChannel.get_sample (c : SquareChannel) : Option (Int × SquareChannel) :=
  if c.current_volume = 0 then some (0, c)
  else
    let duty_patterns : List Nat := [0b00000001, 0b10000001, 0b10000111, 0b01111110]
    match duty_patterns.get? c.duty_cycle with
    | none => none
    | some pattern =>
      let bit_index := (c.phase >>> 16) &&& 7
      let amplitude : Int := if (pattern >>> bit_index) &&& 1 ≠ 0 then 1 else -1
      let c2 := { c with phase := (c.phase + c.frequency * 8) % 0x100000000 }
      some (i16wrap (amplitude * (c.current_volume : Int) * 512), c2)

structure WaveChannel where
  enabled : Bool
  frequency : Nat
  volume : Nat
  length : Nat
  length_enabled : Bool
  wave_pattern : Nat → Nat
  phase : Nat
  sample_index : Nat

/-- `WaveChannel::new`. -/
def WaveChannel.new : WaveChannel :=
  { enabled := false
    frequency := 0
    volume := 0
    length := 0
    length_enabled := false
    wave_pattern := fun _ => 0
    phase := 0
    sample_index := 0 }

/-- `WaveChannel::get_sample`: indexes the 32-entry `wave_pattern`
at `sample_index` unchecked (`none` = index panic), then advances
`sample_index` modulo 32. -/
def WaveChannel.get_sample (c : WaveChannel) : Option (Int × WaveChannel) :=
  if c.volume = 0 then some (0, c)
  else
    if c.sample_index < 32 then
      let sample : Int := c.wave_pattern c.sample_index
      some (i16wrap (sample * 256), { c with sample_index := (c.sample_index + 1) % 32 })
    else none

structure NoiseChannel where
  enabled : Bool
  frequency : Nat
  volume : Nat
  envelope_period : Nat
  envelope_direction : Bool
  length : Nat
  length_enabled : Bool
  width_mode : Bool
  lfsr : Nat
  envelope_counter : Nat
  current_volume : Nat

/-- `NoiseChannel::new`: LFSR seeded to `0x7FFF`. -/
def NoiseChannel.new : NoiseChannel :=
  { enabled := false
    frequency := 0
    volume := 0
    envelope_period := 0
    envelope_direction := false
    length := 0
    length_enabled := false
    width_mode := false
    lfsr := 0x7FFF
    envelope_counter := 0
    current_volume := 0 }

/-- `NoiseChannel::get_sample`: with `current_volume = 0` it returns 0
without touching the LFSR; otherwise the LFSR shifts right with
`bit0 XOR bit1` inserted at position 14 (`!0x40` on `u16` is
`0xFFBF`), mirrored into bit 6 in short-width mode. -/
def NoiseChannel.get_sample (c : NoiseChannel) : Int × NoiseChannel :=
  if c.current_volume = 0 then (0, c)
  else
    let bit := c.lfsr &&& 1
    let amplitude : Int := if bit = 0 then 1 else -1
    let bit_1 := (c.lfsr >>> 1) &&& 1
    let bit_0 := c.lfsr &&& 1
    let new_bit := bit_1 ^^^ bit_0
    let lfsr1 := (c.lfsr >>> 1) ||| (new_bit <<< 14)
    let lfsr2 :=
      if c.width_mode then (lfsr1 &&& 0xFFBF) ||| ((new_bit <<< 6) &&& 0x40) else lfsr1
    (i16wrap (amplitude * (c.current_volume : Int) * 512), { c with lfsr := lfsr2 })

structure Apu where
  master_volume : Nat
  sound_enabled : Bool
  audio_buffer : Nat → Int
  buffer_pos : Nat
  cycles : Nat
  sample_counter : Nat
  channel1 : SquareChannel
  channel2 : SquareChannel
  channel3 : WaveChannel
  channel4 : NoiseChannel

/-- `Apu::new`. -/
def Apu.new : Apu :=
  { master_volume := 0x77
    sound_enabled := true
    audio_buffer := fun _ => 0
    buffer_pos := 0
    cycles := 0
    sample_counter := 0
    channel1 := SquareChannel.new
    channel2 := SquareChannel.new
    channel3 := WaveChannel.new
    channel4 := NoiseChannel.new }

/-- `Apu::generate_sample`: writes one mixed sample (or silence when
sound is disabled) at `buffer_pos` and advances
`buffer_pos := (buffer_pos + 1) % BUFFER_SIZE`.  Only enabled channels
are sampled; mixing multiplies by `master_volume`, divides by 4 with
`i32` truncating division and clamps to the `i16` range. -/
def Apu.generate_sample (a : Apu) : Option Apu :=
  if a.sound_enabled = false then
    if a.buffer_pos < BUFFER_SIZE then
      some { a with
        audio_buffer := fun i => if i = a.buffer_pos then 0 else a.audio_buffer i
        buffer_pos := (a.buffer_pos + 1) % BUFFER_SIZE }
    else none
  else
    (if a.channel1.enabled then a.channel1.get_sample else some (0, a.channel1)).bind fun s1 =>
    (if a.channel2.enabled then a.channel2.get_sample else some (0, a.channel2)).bind fun s2 =>
    (if a.channel3.enabled then a.channel3.get_sample else some (0, a.channel3)).bind fun s3 =>
    let s4 := if a.channel4.enabled then a.channel4.get_sample else (0, a.channel4)
    let sample0 : Int := s1.1 + s2.1 + s3.1 + s4.1
    let sample1 := (sample0 * (a.master_volume : Int)).tdiv 4
    let sample2 := if sample1 < -32768 then -32768 else if 32767 < sample1 then 32767 else sample1
    if a.buffer_pos < BUFFER_SIZE then
      some { a with
        channel1 := s1.2
        channel2 := s2.2
        channel3 := s3.2
        channel4 := s4.2
        audio_buffer := fun i => if i = a.buffer_pos then sample2 else a.audio_buffer i
        buffer_pos := (a.buffer_pos + 1) % BUFFER_SIZE }
    else none

/-- `Apu::step`: `u32` counters advance with explicit wrap; one sample
is generated each time the fractional accumulator crosses the console
clock rate `4194304`. -/
def Apu.step (a : Apu) : Option Apu :=
  let a1 := { a with cycles := (a.cycles + 1) % 0x100000000 }
  let a2 := { a1 with sample_counter := (a1.sample_counter + SAMPLE_RATE) % 0x100000000 }
  if 4194304 ≤ a2.sample_counter then
    Apu.generate_sample { a2 with sample_counter := a2.sample_counter - 4194304 }
  else some a2

/-- `Apu::clear_buffer`. -/
def Apu.clear_buffer (a : Apu) : Apu := { a with buffer_pos := 0 }

/-- Iterated noise-channel emissions (the state part of `get_sample`). -/
def noiseIter : Nat → NoiseChannel → NoiseChannel
  | 0, c => c
  | n + 1, c => noiseIter n (c.get_sample).2

/-- An APU state about to emit: the output buffer is at its last slot
and the accumulator one step from the clock-rate threshold. -/
def apuWrap : Apu := { Apu.new with buffer_pos := 1023, sample_counter := 4150204 }

/-- An APU state with sound disabled, mid-buffer. -/
def apuOff : Apu := { Apu.new with sound_enabled := false, buffer_pos := 5 }

/-- `apuOff` after one sample emission. -/
def apuOffNext : Apu :=
  { apuOff with
    audio_buffer := fun i => if i = apuOff.buffer_pos then 0 else apuOff.audio_buffer i
    buffer_pos := (apuOff.buffer_pos + 1) % BUFFER_SIZE }

/-- A square channel whose duty index is out of the 4-entry table. -/
def sqBad : SquareChannel := { SquareChannel.new with duty_cycle := 4, current_volume := 1 }

/-- A freshly seeded noise channel with audible volume. -/
def noiseSeed : NoiseChannel := { NoiseChannel.new with current_volume := 1 }

/-! Evaluation lemmas for `Mmu.read_byte` / `Mmu.write_byte`, one per
address region of the memory map. -/

theorem read_byte_rom0 (m : Mmu) (a : Nat) (h2 : a ≤ 0x3FFF) :
    m.read_byte a = some (m.rom_bank_0 (a - 0x0000)) := by
  unfold Mmu.read_byte arrGet
  rw [if_pos h2, if_pos (show a - 0x0000 < 0x4000 by omega)]

theorem read_byte_romn (m : Mmu) (a : Nat) (h1 : 0x4000 ≤ a) (h2 : a ≤ 0x7FFF) :
    m.read_byte a = some (m.rom_bank_n (a - 0x4000)) := by
  unfold Mmu.read_byte arrGet
  rw [if_neg (show ¬a ≤ 0x3FFF by omega), if_pos h2,
      if_pos (show a - 0x4000 < 0x4000 by omega)]

theorem read_byte_vram (m : Mmu) (a : Nat) (h1 : 0x8000 ≤ a) (h2 : a ≤ 0x9FFF) :
    m.read_byte a = some (m.vram (a - 0x8000)) := by
  unfold Mmu.read_byte arrGet
  rw [if_neg (show ¬a ≤ 0x3FFF by omega), if_neg (show ¬a ≤ 0x7FFF by omega),
      if_pos h2, if_pos (show a - 0x8000 < 0x2000 by omega)]

theorem read_byte_extram (m : Mmu) (a : Nat) (h1 : 0xA000 ≤ a) (h2 : a ≤ 0xBFFF) :
    m.read_byte a = some (m.external_ram (a - 0xA000)) := by
  unfold Mmu.read_byte arrGet
  rw [if_neg (show ¬a ≤ 0x3FFF by omega), if_neg (show ¬a ≤ 0x7FFF by omega),
      if_neg (show ¬a ≤ 0x9FFF by omega), if_pos h2,
      if_pos (show a - 0xA000 < 0x2000 by omega)]

theorem read_byte_wram (m : Mmu) (a : Nat) (h1 : 0xC000 ≤ a) (h2 : a ≤ 0xDFFF) :
    m.read_byte a = some (m.wram (a - 0xC000)) := by
  unfold Mmu.read_byte arrGet
  rw [if_neg (show ¬a ≤ 0x3FFF by omega), if_neg (show ¬a ≤ 0x7FFF by omega),
      if_neg (show ¬a ≤ 0x9FFF by omega), if_neg (show ¬a ≤ 0xBFFF by omega),
      if_pos h2, if_pos (show a - 0xC000 < 0x2000 by omega)]

theorem read_byte_echo (m : Mmu) (a : Nat) (h1 : 0xE000 ≤ a) (h2 : a ≤ 0xFDFF) :
    m.read_byte a = some (m.wram (a - 0xE000)) := by
  unfold Mmu.read_byte arrGet
  rw [if_neg (show ¬a ≤ 0x3FFF by omega), if_neg (show ¬a ≤ 0x7FFF by omega),
      if_neg (show ¬a ≤ 0x9FFF by omega), if_neg (show ¬a ≤ 0xBFFF by omega),
      if_neg (show ¬a ≤ 0xDFFF by omega), if_pos h2,
      if_pos (show a - 0xE000 < 0x2000 by omega)]

theorem read_byte_oam (m : Mmu) (a : Nat) (h1 : 0xFE00 ≤ a) (h2 : a ≤ 0xFE9F) :
    m.read_byte a = some (m.oam (a - 0xFE00)) := by
  unfold Mmu.read_byte arrGet
  rw [if_neg (show ¬a ≤ 0x3FFF by omega), if_neg (show ¬a ≤ 0x7FFF by omega),
      if_neg (show ¬a ≤ 0x9FFF by omega), if_neg (show ¬a ≤ 0xBFFF by omega),
      if_neg (show ¬a ≤ 0xDFFF by omega), if_neg (show ¬a ≤ 0xFDFF by omega),
      if_pos h2, if_pos (show a - 0xFE00 < 0xA0 by omega)]

theorem read_byte_unused (m : Mmu) (a : Nat) (h1 : 0xFEA0 ≤ a) (h2 : a ≤ 0xFEFF) :
    m.read_byte a = some 0xFF := by
  unfold Mmu.read_byte
  rw [if_neg (show ¬a ≤ 0x3FFF by omega), if_neg (show ¬a ≤ 0x7FFF by omega),
      if_neg (show ¬a ≤ 0x9FFF by omega), if_neg (show ¬a ≤ 0xBFFF by omega),
      if_neg (show ¬a ≤ 0xDFFF by omega), if_neg (show ¬a ≤ 0xFDFF by omega),
      if_neg (show ¬a ≤ 0xFE9F by omega), if_pos h2]

theorem read_byte_io (m : Mmu) (a : Nat) (h1 : 0xFF00 ≤ a) (h2 : a ≤ 0xFF7F) :
    m.read_byte a = some (m.io_registers (a - 0xFF00)) := by
  unfold Mmu.read_byte arrGet
  rw [if_neg (show ¬a ≤ 0x3FFF by omega), if_neg (show ¬a ≤ 0x7FFF by omega),
      if_neg (show ¬a ≤ 0x9FFF by omega), if_neg (show ¬a ≤ 0xBFFF by omega),
      if_neg (show ¬a ≤ 0xDFFF by omega), if_neg (show ¬a ≤ 0xFDFF by omega),
      if_neg (show ¬a ≤ 0xFE9F by omega), if_neg (show ¬a ≤ 0xFEFF by omega),
      if_pos h2, if_pos (show a - 0xFF00 < 0x80 by omega)]

theorem read_byte_hram (m : Mmu) (a : Nat) (h1 : 0xFF80 ≤ a) (h2 : a ≤ 0xFFFE) :
    m.read_byte a = some (m.hram (a - 0xFF80)) := by
  unfold Mmu.read_byte arrGet
  rw [if_neg (show ¬a ≤ 0x3FFF by omega), if_neg (show ¬a ≤ 0x7FFF by omega),
      if_neg (show ¬a ≤ 0x9FFF by omega), if_neg (show ¬a ≤ 0xBFFF by omega),
      if_neg (show ¬a ≤ 0xDFFF by omega), if_neg (show ¬a ≤ 0xFDFF by omega),
      if_neg (show ¬a ≤ 0xFE9F by omega), if_neg (show ¬a ≤ 0xFEFF by omega),
      if_neg (show ¬a ≤ 0xFF7F by omega), if_pos h2,
      if_pos (show a - 0xFF80 < 0x7F by omega)]

theorem read_byte_ie (m : Mmu) (a : Nat) (h1 : a = 0xFFFF) :
    m.read_byte a = some m.interrupt_enable := by
  unfold Mmu.read_byte
  rw [if_neg (show ¬a ≤ 0x3FFF by omega), if_neg (show ¬a ≤ 0x7FFF by omega),
      if_neg (show ¬a ≤ 0x9FFF by omega), if_neg (show ¬a ≤ 0xBFFF by omega),
      if_neg (show ¬a ≤ 0xDFFF by omega), if_neg (show ¬a ≤ 0xFDFF by omega),
      if_neg (show ¬a ≤ 0xFE9F by omega), if_neg (show ¬a ≤ 0xFEFF by omega),
      if_neg (show ¬a ≤ 0xFF7F by omega), if_neg (show ¬a ≤ 0xFFFE by omega),
      if_pos h1]

theorem write_byte_rom (m : Mmu) (a v : Nat) (h2 : a ≤ 0x7FFF) :
    m.write_byte a v = some m := by
  unfold Mmu.write_byte
  by_cases c : a ≤ 0x3FFF
  · rw [if_pos c]
  · rw [if_neg c, if_pos h2]

theorem write_byte_wram (m : Mmu) (a v : Nat) (h1 : 0xC000 ≤ a) (h2 : a ≤ 0xDFFF) :
    m.write_byte a v =
      some { m with wram := fun j => if j = a - 0xC000 then v else m.wram j } := by
  unfold Mmu.write_byte arrSet
  rw [if_neg (show ¬a ≤ 0x3FFF by omega), if_neg (show ¬a ≤ 0x7FFF by omega),
      if_neg (show ¬a ≤ 0x9FFF by omega), if_neg (show ¬a ≤ 0xBFFF by omega),
      if_pos h2, if_pos (show a - 0xC000 < 0x2000 by omega)]
  rfl

theorem write_byte_echo (m : Mmu) (a v : Nat) (h1 : 0xE000 ≤ a) (h2 : a ≤ 0xFDFF) :
    m.write_byte a v =
      some { m with wram := fun j => if j = a - 0xE000 then v else m.wram j } := by
  unfold Mmu.write_byte arrSet
  rw [if_neg (show ¬a ≤ 0x3FFF by omega), if_neg (show ¬a ≤ 0x7FFF by omega),
      if_neg (show ¬a ≤ 0x9FFF by omega), if_neg (show ¬a ≤ 0xBFFF by omega),
      if_neg (show ¬a ≤ 0xDFFF by omega), if_pos h2,
      if_pos (show a - 0xE000 < 0x2000 by omega)]
  rfl

theorem write_byte_unused (m : Mmu) (a v : Nat) (h1 : 0xFEA0 ≤ a) (h2 : a ≤ 0xFEFF) :
    m.write_byte a v = some m := by
  unfold Mmu.write_byte
  rw [if_neg (show ¬a ≤ 0x3FFF by omega), if_neg (show ¬a ≤ 0x7FFF by omega),
      if_neg (show ¬a ≤ 0x9FFF by omega), if_neg (show ¬a ≤ 0xBFFF by omega),
      if_neg (show ¬a ≤ 0xDFFF by omega), if_neg (show ¬a ≤ 0xFDFF by omega),
      if_neg (show ¬a ≤ 0xFE9F by omega), if_pos h2]


/-- C1: for every MMU state (in particular every state reachable by
`write_byte` calls) and every address in `[0x0000, 0xFFFF]`,
`read_byte` returns a byte (never panics); every address in the unused
hole `0xFEA0`-`0xFEFF` reads as `0xFF`, and a write into the hole
leaves the MMU state unchanged. -/
theorem mmu_read_total_and_unused_hole (m : Mmu) (address : Nat) (h : address ≤ 0xFFFF) :
    (m.read_byte address).isSome = true ∧
    (0xFEA0 ≤ address → address ≤ 0xFEFF →
      m.read_byte address = some 0xFF ∧ ∀ v, m.write_byte address v = some m) := by
  refine ⟨?_, fun h1 h2 => ⟨read_byte_unused m address h1 h2,
    fun v => write_byte_unused m address v h1 h2⟩⟩
  by_cases c1 : address ≤ 0x3FFF
  case pos => rw [read_byte_rom0 m address c1]; rfl
  by_cases c2 : address ≤ 0x7FFF
  case pos => rw [read_byte_romn m address (by omega) c2]; rfl
  by_cases c3 : address ≤ 0x9FFF
  case pos => rw [read_byte_vram m address (by omega) c3]; rfl
  by_cases c4 : address ≤ 0xBFFF
  case pos => rw [read_byte_extram m address (by omega) c4]; rfl
  by_cases c5 : address ≤ 0xDFFF
  case pos => rw [read_byte_wram m address (by omega) c5]; rfl
  by_cases c6 : address ≤ 0xFDFF
  case pos => rw [read_byte_echo m address (by omega) c6]; rfl
  by_cases c7 : address ≤ 0xFE9F
  case pos => rw [read_byte_oam m address (by omega) c7]; rfl
  by_cases c8 : address ≤ 0xFEFF
  case pos => rw [read_byte_unused m address (by omega) c8]; rfl
  by_cases c9 : address ≤ 0xFF7F
  case pos => rw [read_byte_io m address (by omega) c9]; rfl
  by_cases c10 : address ≤ 0xFFFE
  case pos => rw [read_byte_hram m address (by omega) c10]; rfl
  rw [read_byte_ie m address (by omega)]; rfl

/-- Witness for `mmu_read_total_and_unused_hole` at address `0xFEA5`. -/
theorem mmu_read_total_and_unused_hole_witness :
    (Mmu.new.read_byte 0xFEA5).isSome = true ∧
    (0xFEA0 ≤ 0xFEA5 → 0xFEA5 ≤ 0xFEFF →
      Mmu.new.read_byte 0xFEA5 = some 0xFF ∧ ∀ v, Mmu.new.write_byte 0xFEA5 v = some Mmu.new) :=
  mmu_read_total_and_unused_hole Mmu.new 0xFEA5 (by decide)

/-- C5: the echo region `0xE000 + k` and work RAM `0xC000 + k` alias the
same backing store: a write through either address is read back through
the other. -/
theorem echo_ram_wram_alias (m : Mmu) (k v : Nat) (hk : k ≤ 0x1DFF) :
    ((m.write_byte (0xE000 + k) v).bind fun m2 => m2.read_byte (0xC000 + k)) = some v ∧
    ((m.write_byte (0xC000 + k) v).bind fun m2 => m2.read_byte (0xE000 + k)) = some v := by
  have e1 : 0xE000 + k - 0xE000 = k := by omega
  have e2 : 0xC000 + k - 0xC000 = k := by omega
  constructor
  · rw [write_byte_echo m (0xE000 + k) v (by omega) (by omega)]
    simp only [Option.some_bind]
    rw [read_byte_wram _ (0xC000 + k) (by omega) (by omega)]
    simp [e1, e2]
  · rw [write_byte_wram m (0xC000 + k) v (by omega) (by omega)]
    simp only [Option.some_bind]
    rw [read_byte_echo _ (0xE000 + k) (by omega) (by omega)]
    simp [e1, e2]

/-- Witness for `echo_ram_wram_alias` at offset `0x123`, value `0x42`. -/
theorem echo_ram_wram_alias_witness :
    ((Mmu.new.write_byte (0xE000 + 0x123) 0x42).bind fun m2 => m2.read_byte (0xC000 + 0x123)) = some 0x42 ∧
    ((Mmu.new.write_byte (0xC000 + 0x123) 0x42).bind fun m2 => m2.read_byte (0xE000 + 0x123)) = some 0x42 :=
  echo_ram_wram_alias Mmu.new 0x123 0x42 (by decide)

/-- C3 counterexample: a write into the ROM bank-select window
(`0x2000`, value `0x02` — an MBC1 ROM-bank-number write) through
`Mmu::write_byte` is a no-op: the MMU state is returned unchanged.  The
`Mmu` owns no cartridge controller and forwards nothing; no MBC state
exists in it to be mutated. -/
theorem mmu_rom_write_not_forwarded_cex :
    Mmu.write_byte Mmu.new 0x2000 0x02 = some Mmu.new := rfl

/-- C3 amended: for every address in the ROM windows
`0x0000`-`0x7FFF` and every value, `Mmu::write_byte` ignores the write
entirely — the MMU state (ROM bytes included) is unchanged and nothing
is forwarded to any cartridge controller. -/
theorem mmu_rom_write_ignored (m : Mmu) (address value : Nat) (h : address ≤ 0x7FFF) :
    m.write_byte address value = some m :=
  write_byte_rom m address value h

/-- Witness for `mmu_rom_write_ignored` at address `0x6000`. -/
theorem mmu_rom_write_ignored_witness :
    Mmu.new.write_byte 0x6000 0x01 = some Mmu.new :=
  mmu_rom_write_ignored Mmu.new 0x6000 0x01 (by decide)

/-- C6 counterexample: a 16KB (`0x4000`-byte) image is shorter than the
spec's 32KB minimum, yet `Mmu::load_rom` accepts it. -/
theorem load_rom_16kb_accepted_cex :
    (Mmu.new.load_rom (Bytes.zeros 0x4000)).isSome = true ∧ 0x4000 < 0x8000 :=
  ⟨rfl, by decide⟩

/-- C6 amended: `Mmu::load_rom` fails with the invalid-image error
exactly when the input is shorter than `0x4000` bytes (16KB, one
bank); otherwise it succeeds, copies the first 16KB into the fixed
bank, and copies the second 16KB into the switchable bank only when
the input has at least `0x8000` bytes (leaving that bank untouched on
shorter inputs). -/
theorem load_rom_spec (m : Mmu) (d : Bytes) :
    (m.load_rom d = none ↔ d.size < 0x4000) ∧
    (0x4000 ≤ d.size → ∃ m2, m.load_rom d = some m2 ∧
      (∀ i, m2.rom_bank_0 i = d.data i) ∧
      (0x8000 ≤ d.size → ∀ i, m2.rom_bank_n i = d.data (0x4000 + i)) ∧
      (d.size < 0x8000 → m2.rom_bank_n = m.rom_bank_n)) := by
  unfold Mmu.load_rom
  split_ifs with h1 h2
  · exact ⟨⟨fun _ => h1, fun _ => rfl⟩, fun hge => absurd h1 (by omega)⟩
  · exact ⟨⟨fun hc => hc.elim, fun hc => absurd hc h1⟩,
      fun _ => ⟨_, rfl, fun i => rfl, fun _ i => rfl, fun hlt => absurd hlt (by omega)⟩⟩
  · exact ⟨⟨fun hc => hc.elim, fun hc => absurd hc h1⟩,
      fun _ => ⟨_, rfl, fun i => rfl, fun hge => absurd hge h2, fun _ => rfl⟩⟩

/-- Witness for `load_rom_spec`: a 256-byte input is rejected, a
32KB input is loaded into both banks. -/
theorem load_rom_spec_witness :
    Mmu.new.load_rom (Bytes.zeros 0x100) = none ∧
    ∃ m2, Mmu.new.load_rom (Bytes.zeros 0x8000) = some m2 ∧
      (∀ i, m2.rom_bank_0 i = (Bytes.zeros 0x8000).data i) ∧
      (0x8000 ≤ (Bytes.zeros 0x8000).size → ∀ i, m2.rom_bank_n i = (Bytes.zeros 0x8000).data (0x4000 + i)) ∧
      ((Bytes.zeros 0x8000).size < 0x8000 → m2.rom_bank_n = Mmu.new.rom_bank_n) :=
  ⟨(load_rom_spec Mmu.new (Bytes.zeros 0x100)).1.mpr (by decide),
   (load_rom_spec Mmu.new (Bytes.zeros 0x8000)).2 (by decide)⟩

/-- C4 (failing input): from the valid 32KB MBC1 image `img32`, a
single MBC control write of `0x02` to `0x2000` sets
`current_rom_bank = 2` — the bank index is *not* masked to the two
physical banks — and a subsequent read of the switchable window at
`0x4000` indexes `rom_data[0x8000]`, out of bounds of the
`0x8000`-byte image: the Rust code panics (`none` here). -/
theorem cartridge_unmasked_bank_panics :
    Cartridge.new img32 = some cart32 ∧
    cart32.write 0x2000 0x02 = some { cart32 with current_rom_bank := 2 } ∧
    Cartridge.read { cart32 with current_rom_bank := 2 } 0x4000 = none :=
  ⟨rfl, rfl, rfl⟩

/-- C7: for any image of at least `0x8000` bytes whose type byte names
a supported controller, `Cartridge` construction succeeds even when
the recomputed header checksum (0-start, per-byte wrapping subtraction
of the byte and of 1 over offsets `0x134..0x14D`) differs from the
stored checksum byte at `0x14D`: the mismatch is only logged, never an
error. -/
theorem header_checksum_mismatch_nonfatal (rom : Bytes) (hsz : 0x8000 ≤ rom.size)
    (hmbc : (Cartridge.determine_mbc_type (rom.data 0x147)).isSome = true)
    (hmism : header_checksum_calc rom ≠ rom.data 0x14D) :
    (Cartridge.parse_header rom).isSome = true ∧ (Cartridge.new rom).isSome = true := by
  have hp2 : Cartridge.parse_header rom = some
      { title := ((List.range 0x10).map fun i => rom.data (0x134 + i)).takeWhile fun b => b != 0
        cartridge_type := rom.data 0x147
        rom_size := rom.data 0x148
        ram_size := rom.data 0x149
        destination_code := rom.data 0x14A
        old_licensee_code := rom.data 0x14B
        mask_rom_version := rom.data 0x14C
        header_checksum := rom.data 0x14D
        global_checksum := (rom.data 0x14E <<< 8) ||| rom.data 0x14F } := by
    unfold Cartridge.parse_header
    rw [if_neg (show ¬rom.size < 0x150 by omega)]
  refine ⟨by rw [hp2]; rfl, ?_⟩
  unfold Cartridge.new
  rw [if_neg (show ¬rom.size < 0x8000 by omega), hp2]
  simp only [Option.some_bind]
  obtain ⟨mt, hmt⟩ := Option.isSome_iff_exists.mp hmbc
  rw [show Cartridge.determine_mbc_type _ = some mt from hmt]
  rfl

/-- Witness for `header_checksum_mismatch_nonfatal` on `img32`, whose
recomputed checksum is `0xE6` while the stored byte is `0`. -/
theorem header_checksum_mismatch_nonfatal_witness :
    (Cartridge.parse_header img32).isSome = true ∧ (Cartridge.new img32).isSome = true :=
  header_checksum_mismatch_nonfatal img32 (by decide) (by decide) (by decide)

theorem rs_scanline (p : Ppu) : p.render_scanline.scanline = p.scanline := by
  unfold Ppu.render_scanline Ppu.render_background Ppu.render_window Ppu.render_sprites
  simp only [ite_self]
  by_cases c : 144 ≤ p.scanline
  · rw [if_pos c]
  · rw [if_neg c]

theorem rs_mode (p : Ppu) : p.render_scanline.mode = p.mode := by
  unfold Ppu.render_scanline Ppu.render_background Ppu.render_window Ppu.render_sprites
  simp only [ite_self]
  by_cases c : 144 ≤ p.scanline
  · rw [if_pos c]
  · rw [if_neg c]

theorem rs_cycles (p : Ppu) : p.render_scanline.cycles = p.cycles := by
  unfold Ppu.render_scanline Ppu.render_background Ppu.render_window Ppu.render_sprites
  simp only [ite_self]
  by_cases c : 144 ≤ p.scanline
  · rw [if_pos c]
  · rw [if_neg c]

/-- `Ppu.step` is simulated by `stepT` on the timing fields. -/
theorem step_toT (p : Ppu) : p.step.toT = stepT p.toT := by
  cases hm : p.mode
  all_goals
    unfold Ppu.step stepT Ppu.toT
    simp only [hm]
    split_ifs <;>
      first
        | rfl
        | (refine PpuT.mk.injEq .. ▸ ?_
           exact ⟨by rw [rs_scanline], by rw [rs_mode], by rw [rs_cycles]⟩)

/-- Iterated simulation. -/
theorem stepN_toT (n : Nat) (p : Ppu) : (Ppu.stepN n p).toT = stepTN n p.toT := by
  induction n generalizing p with
  | zero => rfl
  | succ n ih =>
    show (Ppu.stepN n p.step).toT = stepTN n (stepT p.toT)
    rw [ih, step_toT]

theorem stepTN_add (a b : Nat) (t : PpuT) :
    stepTN (a + b) t = stepTN b (stepTN a t) := by
  induction a generalizing t with
  | zero => rw [Nat.zero_add]; rfl
  | succ a ih =>
    rw [show a + 1 + b = (a + b) + 1 by omega]
    show stepTN (a + b) (stepT t) = stepTN b (stepTN a (stepT t))
    exact ih (stepT t)

theorem tick_oam (l c : Nat) (h : c + 1 < 80) :
    stepT ⟨l, .OamScan, c⟩ = ⟨l, .OamScan, c + 1⟩ := by
  show (if 80 ≤ c + 1 then (⟨l, .Drawing, 0⟩ : PpuT) else ⟨l, .OamScan, c + 1⟩) = _
  rw [if_neg (by omega)]

theorem tick_draw (l c : Nat) (h : c + 1 < 172) :
    stepT ⟨l, .Drawing, c⟩ = ⟨l, .Drawing, c + 1⟩ := by
  show (if 172 ≤ c + 1 then (⟨l, .HBlank, 0⟩ : PpuT) else ⟨l, .Drawing, c + 1⟩) = _
  rw [if_neg (by omega)]

theorem tick_hblank (l c : Nat) (h : c + 1 < 204) :
    stepT ⟨l, .HBlank, c⟩ = ⟨l, .HBlank, c + 1⟩ := by
  show (if 204 ≤ c + 1 then
          if 144 ≤ l + 1 then (⟨l + 1, .VBlank, 0⟩ : PpuT) else ⟨l + 1, .OamScan, 0⟩
        else ⟨l, .HBlank, c + 1⟩) = _
  rw [if_neg (by omega)]

theorem tick_vblank (l c : Nat) (h : c + 1 < 456) :
    stepT ⟨l, .VBlank, c⟩ = ⟨l, .VBlank, c + 1⟩ := by
  show (if 456 ≤ c + 1 then
          if 154 ≤ l + 1 then (⟨0, .OamScan, 0⟩ : PpuT) else ⟨l + 1, .VBlank, 0⟩
        else ⟨l, .VBlank, c + 1⟩) = _
  rw [if_neg (by omega)]

theorem run_oam (l : Nat) : ∀ n c, c + n = 80 → 1 ≤ n →
    stepTN n ⟨l, .OamScan, c⟩ = ⟨l, .Drawing, 0⟩ := by
  intro n
  induction n with
  | zero => intro c h h1; exact absurd h1 (by omega)
  | succ n ih =>
    intro c h h1
    show stepTN n (stepT ⟨l, .OamScan, c⟩) = _
    by_cases hn : n = 0
    · subst hn
      have hc : c = 79 := by omega
      subst hc
      rfl
    · rw [tick_oam l c (by omega)]
      exact ih (c + 1) (by omega) (by omega)

theorem run_draw (l : Nat) : ∀ n c, c + n = 172 → 1 ≤ n →
    stepTN n ⟨l, .Drawing, c⟩ = ⟨l, .HBlank, 0⟩ := by
  intro n
  induction n with
  | zero => intro c h h1; exact absurd h1 (by omega)
  | succ n ih =>
    intro c h h1
    show stepTN n (stepT ⟨l, .Drawing, c⟩) = _
    by_cases hn : n = 0
    · subst hn
      have hc : c = 171 := by omega
      subst hc
      rfl
    · rw [tick_draw l c (by omega)]
      exact ih (c + 1) (by omega) (by omega)

theorem run_hblank (l : Nat) : ∀ n c, c + n = 204 → 1 ≤ n →
    stepTN n ⟨l, .HBlank, c⟩ =
      if 144 ≤ l + 1 then ⟨l + 1, .VBlank, 0⟩ else ⟨l + 1, .OamScan, 0⟩ := by
  intro n
  induction n with
  | zero => intro c h h1; exact absurd h1 (by omega)
  | succ n ih =>
    intro c h h1
    show stepTN n (stepT ⟨l, .HBlank, c⟩) = _
    by_cases hn : n = 0
    · subst hn
      have hc : c = 203 := by omega
      subst hc
      rfl
    · rw [tick_hblank l c (by omega)]
      exact ih (c + 1) (by omega) (by omega)

theorem run_vblank (l : Nat) : ∀ n c, c + n = 456 → 1 ≤ n →
    stepTN n ⟨l, .VBlank, c⟩ =
      if 154 ≤ l + 1 then ⟨0, .OamScan, 0⟩ else ⟨l + 1, .VBlank, 0⟩ := by
  intro n
  induction n with
  | zero => intro c h h1; exact absurd h1 (by omega)
  | succ n ih =>
    intro c h h1
    show stepTN n (stepT ⟨l, .VBlank, c⟩) = _
    by_cases hn : n = 0
    · subst hn
      have hc : c = 455 := by omega
      subst hc
      rfl
    · rw [tick_vblank l c (by omega)]
      exact ih (c + 1) (by omega) (by omega)

theorem stepT_oam (l : Nat) : stepTN 80 ⟨l, .OamScan, 0⟩ = ⟨l, .Drawing, 0⟩ :=
  run_oam l 80 0 (by omega) (by omega)

theorem stepT_draw (l : Nat) : stepTN 172 ⟨l, .Drawing, 0⟩ = ⟨l, .HBlank, 0⟩ :=
  run_draw l 172 0 (by omega) (by omega)

theorem stepT_hblank204 (l : Nat) :
    stepTN 204 ⟨l, .HBlank, 0⟩ =
      if 144 ≤ l + 1 then ⟨l + 1, .VBlank, 0⟩ else ⟨l + 1, .OamScan, 0⟩ :=
  run_hblank l 204 0 (by omega) (by omega)

theorem stepT_vblank456 (l : Nat) :
    stepTN 456 ⟨l, .VBlank, 0⟩ =
      if 154 ≤ l + 1 then ⟨0, .OamScan, 0⟩ else ⟨l + 1, .VBlank, 0⟩ :=
  run_vblank l 456 0 (by omega) (by omega)

theorem stepT_line (l : Nat) (h : l + 1 < 144) :
    stepTN 456 ⟨l, .OamScan, 0⟩ = ⟨l + 1, .OamScan, 0⟩ := by
  rw [show (456 : Nat) = 80 + 172 + 204 by norm_num, stepTN_add, stepTN_add,
    stepT_oam, stepT_draw, stepT_hblank204, if_neg (by omega)]

theorem stepT_line143 : stepTN 456 ⟨143, .OamScan, 0⟩ = ⟨144, .VBlank, 0⟩ := by
  rw [show (456 : Nat) = 80 + 172 + 204 by norm_num, stepTN_add, stepTN_add,
    stepT_oam, stepT_draw, stepT_hblank204, if_pos (by omega)]

theorem stepT_vline (l : Nat) (h : l + 1 < 154) :
    stepTN 456 ⟨l, .VBlank, 0⟩ = ⟨l + 1, .VBlank, 0⟩ := by
  rw [stepT_vblank456, if_neg (by omega)]

theorem stepT_vline153 : stepTN 456 ⟨153, .VBlank, 0⟩ = ⟨0, .OamScan, 0⟩ := by
  rw [stepT_vblank456, if_pos (by omega)]

theorem stepT_lines (k : Nat) : k ≤ 143 →
    stepTN (456 * k) ⟨0, .OamScan, 0⟩ = ⟨k, .OamScan, 0⟩ := by
  induction k with
  | zero => intro _; rfl
  | succ k ih =>
    intro hk
    rw [show 456 * (k + 1) = 456 * k + 456 by ring, stepTN_add, ih (by omega)]
    exact stepT_line k (by omega)

theorem stepT_vlines (j : Nat) : j ≤ 9 →
    stepTN (456 * j) ⟨144, .VBlank, 0⟩ = ⟨144 + j, .VBlank, 0⟩ := by
  induction j with
  | zero => intro _; rfl
  | succ j ih =>
    intro hj
    rw [show 456 * (j + 1) = 456 * j + 456 by ring, stepTN_add, ih (by omega)]
    rw [show 144 + (j + 1) = (144 + j) + 1 by omega]
    exact stepT_vline (144 + j) (by omega)

theorem stepT_frame : stepTN 70224 ⟨0, .OamScan, 0⟩ = ⟨0, .OamScan, 0⟩ := by
  rw [show (70224 : Nat) = 456 * 143 + 456 + 456 * 9 + 456 by norm_num,
    stepTN_add, stepTN_add, stepTN_add, stepT_lines 143 (by omega),
    stepT_line143, stepT_vlines 9 (by omega)]
  exact stepT_vline153

/-- C2: from the initial PPU state (scanline 0, mode `OamScan`, cycle
counter 0), exactly 70224 calls to `Ppu::step` return to scanline 0,
`OamScan`, cycle counter 0; moreover each visible scanline consumes
exactly 80 (`OamScan`) + 172 (`Drawing`) + 204 (`HBlank`) = 456 steps,
and each vertical-blank line consumes exactly 456 steps. -/
theorem ppu_frame_timing :
    ((Ppu.stepN 70224 Ppu.new).toT = ⟨0, .OamScan, 0⟩) ∧
    (∀ p : Ppu, p.mode = .OamScan → p.cycles = 0 →
      (Ppu.stepN 80 p).toT = ⟨p.scanline, .Drawing, 0⟩) ∧
    (∀ p : Ppu, p.mode = .Drawing → p.cycles = 0 →
      (Ppu.stepN 172 p).toT = ⟨p.scanline, .HBlank, 0⟩) ∧
    (∀ p : Ppu, p.mode = .HBlank → p.cycles = 0 → p.scanline + 1 < 144 →
      (Ppu.stepN 204 p).toT = ⟨p.scanline + 1, .OamScan, 0⟩) ∧
    (∀ p : Ppu, p.mode = .OamScan → p.cycles = 0 → p.scanline + 1 < 144 →
      (Ppu.stepN 456 p).toT = ⟨p.scanline + 1, .OamScan, 0⟩) ∧
    (∀ p : Ppu, p.mode = .VBlank → p.cycles = 0 → p.scanline + 1 < 154 →
      (Ppu.stepN 456 p).toT = ⟨p.scanline + 1, .VBlank, 0⟩) := by
  have hf : (Ppu.stepN 70224 Ppu.new).toT = ⟨0, .OamScan, 0⟩ := by
    rw [stepN_toT]
    exact stepT_frame
  refine ⟨hf, ?_, ?_, ?_, ?_, ?_⟩
  · intro p hm hc
    rw [stepN_toT, show p.toT = ⟨p.scanline, p.mode, p.cycles⟩ from rfl, hm, hc]
    exact stepT_oam p.scanline
  · intro p hm hc
    rw [stepN_toT, show p.toT = ⟨p.scanline, p.mode, p.cycles⟩ from rfl, hm, hc]
    exact stepT_draw p.scanline
  · intro p hm hc hl
    rw [stepN_toT, show p.toT = ⟨p.scanline, p.mode, p.cycles⟩ from rfl, hm, hc,
      stepT_hblank204, if_neg (by omega)]
  · intro p hm hc hl
    rw [stepN_toT, show p.toT = ⟨p.scanline, p.mode, p.cycles⟩ from rfl, hm, hc]
    exact stepT_line p.scanline hl
  · intro p hm hc hl
    rw [stepN_toT, show p.toT = ⟨p.scanline, p.mode, p.cycles⟩ from rfl, hm, hc]
    exact stepT_vline p.scanline hl

/-- Witness for `ppu_frame_timing`: the initial state completes its
`OamScan` phase in exactly 80 steps. -/
theorem ppu_frame_timing_witness :
    (Ppu.stepN 80 Ppu.new).toT = ⟨Ppu.new.scanline, .Drawing, 0⟩ :=
  ppu_frame_timing.2.1 Ppu.new rfl rfl

/-! APU helper lemmas. -/

theorem gen_buffer_pos (a a' : Apu) (h : Apu.generate_sample a = some a') :
    a'.buffer_pos = (a.buffer_pos + 1) % BUFFER_SIZE := by
  unfold Apu.generate_sample at h
  by_cases hs : a.sound_enabled = false
  · rw [if_pos hs] at h
    by_cases hb : a.buffer_pos < BUFFER_SIZE
    · rw [if_pos hb] at h
      cases h
      rfl
    · rw [if_neg hb] at h
      cases h
  · rw [if_neg hs] at h
    rcases Option.bind_eq_some.mp h with ⟨s1, h1, h⟩
    rcases Option.bind_eq_some.mp h with ⟨s2, h2, h⟩
    rcases Option.bind_eq_some.mp h with ⟨s3, h3, h⟩
    dsimp only at h
    by_cases hb : a.buffer_pos < BUFFER_SIZE
    · rw [if_pos hb] at h
      cases h
      rfl
    · rw [if_neg hb] at h
      cases h

theorem step_buffer_pos (a a' : Apu) (h : Apu.step a = some a') :
    a'.buffer_pos = a.buffer_pos ∨ a'.buffer_pos = (a.buffer_pos + 1) % BUFFER_SIZE := by
  unfold Apu.step at h
  dsimp only at h
  by_cases hc : 4194304 ≤ (a.sample_counter + SAMPLE_RATE) % 0x100000000
  · rw [if_pos hc] at h
    right
    have hg := gen_buffer_pos _ _ h
    exact hg
  · rw [if_neg hc] at h
    cases h
    left
    rfl

theorem width_mask_bits (x y : Nat) :
    (((x &&& 0xFFBF) ||| ((y <<< 6) &&& 0x40)).testBit 14 = x.testBit 14) ∧
    (((x &&& 0xFFBF) ||| ((y <<< 6) &&& 0x40)).testBit 0 = x.testBit 0) ∧
    (((x &&& 0xFFBF) ||| ((y <<< 6) &&& 0x40)).testBit 6 = y.testBit 0) := by
  have m14 : Nat.testBit 0xFFBF 14 = true := by decide
  have m0 : Nat.testBit 0xFFBF 0 = true := by decide
  have m6 : Nat.testBit 0xFFBF 6 = false := by decide
  have g14 : Nat.testBit 0x40 14 = false := by decide
  have g0 : Nat.testBit 0x40 0 = false := by decide
  have g6 : Nat.testBit 0x40 6 = true := by decide
  refine ⟨?_, ?_, ?_⟩ <;>
  · simp only [Nat.testBit_lor, Nat.testBit_land, Nat.testBit_shiftLeft, m14, m0, m6, g14, g0, g6]
    norm_num

theorem lfsr_update_bits (l : Nat) (hb : l < 2 ^ 15) :
    ((((l >>> 1) ||| ((((l >>> 1) &&& 1) ^^^ (l &&& 1)) <<< 14))).testBit 14
        = (l.testBit 0 ^^ l.testBit 1)) ∧
    ((((l >>> 1) ||| ((((l >>> 1) &&& 1) ^^^ (l &&& 1)) <<< 14))).testBit 0 = l.testBit 1) := by
  have h15 : l.testBit 15 = false := Nat.testBit_lt_two_pow hb
  constructor
  · simp only [Nat.testBit_lor, Nat.testBit_shiftLeft, Nat.testBit_shiftRight,
      Nat.testBit_xor, Nat.testBit_land]
    norm_num [h15]
    cases h0 : l.testBit 0 <;> cases h1 : l.testBit 1 <;> simp [h0, h1]
  · simp only [Nat.testBit_lor, Nat.testBit_shiftLeft, Nat.testBit_shiftRight,
      Nat.testBit_xor, Nat.testBit_land]
    norm_num

theorem new_bit_testBit (l : Nat) :
    ((((l >>> 1) &&& 1) ^^^ (l &&& 1)).testBit 0) = (l.testBit 0 ^^ l.testBit 1) := by
  simp only [Nat.testBit_xor, Nat.testBit_land, Nat.testBit_shiftRight]
  norm_num
  cases h0 : l.testBit 0 <;> cases h1 : l.testBit 1 <;> simp [h0, h1]

theorem lfsr_bound (l : Nat) (hb : l < 2 ^ 15) :
    ((l >>> 1) ||| ((((l >>> 1) &&& 1) ^^^ (l &&& 1)) <<< 14)) < 2 ^ 15 := by
  apply Nat.or_lt_two_pow
  · rw [Nat.shiftRight_eq_div_pow]
    omega
  · have h1 : (l >>> 1) &&& 1 < 2 := by rw [Nat.and_one_is_mod]; omega
    have h2 : l &&& 1 < 2 := by rw [Nat.and_one_is_mod]; omega
    have hx : (((l >>> 1) &&& 1) ^^^ (l &&& 1)) < 2 := Nat.xor_lt_two_pow (n := 1) h1 h2
    rw [Nat.shiftLeft_eq]
    have hp : (2 : Nat) ^ 14 = 16384 := by norm_num
    have hq : (2 : Nat) ^ 15 = 32768 := by norm_num
    rw [hp, hq]
    omega

theorem lfsr_width_bound (x y : Nat) (hb : x < 2 ^ 15) :
    ((x &&& 0xFFBF) ||| ((y <<< 6) &&& 0x40)) < 2 ^ 15 := by
  apply Nat.or_lt_two_pow
  · exact lt_of_le_of_lt Nat.and_le_left hb
  · exact lt_of_le_of_lt Nat.and_le_right (by norm_num)

theorem noise_step_lfsr (c : NoiseChannel) (hv : c.current_volume ≠ 0) :
    ((c.get_sample).2).lfsr =
      if c.width_mode then
        ((((c.lfsr >>> 1) ||| ((((c.lfsr >>> 1) &&& 1) ^^^ (c.lfsr &&& 1)) <<< 14)) &&& 0xFFBF) |||
          (((((c.lfsr >>> 1) &&& 1) ^^^ (c.lfsr &&& 1)) <<< 6) &&& 0x40))
      else ((c.lfsr >>> 1) ||| ((((c.lfsr >>> 1) &&& 1) ^^^ (c.lfsr &&& 1)) <<< 14)) := by
  unfold NoiseChannel.get_sample
  rw [if_neg hv]

theorem noise_vol (c : NoiseChannel) :
    ((c.get_sample).2).current_volume = c.current_volume := by
  unfold NoiseChannel.get_sample
  by_cases hv : c.current_volume = 0
  · rw [if_pos hv]
  · rw [if_neg hv]

theorem noiseIter_vol (n : Nat) (c : NoiseChannel) :
    (noiseIter n c).current_volume = c.current_volume := by
  induction n generalizing c with
  | zero => rfl
  | succ n ih =>
    show (noiseIter n (c.get_sample).2).current_volume = _
    rw [ih, noise_vol]

theorem noise_bound_step (c : NoiseChannel) (hb : c.lfsr < 2 ^ 15) :
    ((c.get_sample).2).lfsr < 2 ^ 15 := by
  by_cases hv : c.current_volume = 0
  · unfold NoiseChannel.get_sample
    rw [if_pos hv]
    exact hb
  · rw [noise_step_lfsr c hv]
    by_cases hw : c.width_mode
    · rw [if_pos hw]
      exact lfsr_width_bound _ _ (lfsr_bound _ hb)
    · rw [if_neg hw]
      exact lfsr_bound _ hb

theorem noiseIter_bound (n : Nat) (c : NoiseChannel) (hb : c.lfsr < 2 ^ 15) :
    (noiseIter n c).lfsr < 2 ^ 15 := by
  induction n generalizing c with
  | zero => exact hb
  | succ n ih =>
    show (noiseIter n (c.get_sample).2).lfsr < 2 ^ 15
    exact ih _ (noise_bound_step c hb)

theorem noiseIter_succ (n : Nat) (c : NoiseChannel) :
    noiseIter (n + 1) c = ((noiseIter n c).get_sample).2 := by
  induction n generalizing c with
  | zero => rfl
  | succ n ih =>
    show noiseIter (n + 1) (c.get_sample).2 = _
    rw [ih]
    rfl

/-- C8 counterexample: from the state `apuWrap` (buffer position 1023,
one step below the emission threshold), a single `Apu::step` emits a
sample and the buffer position wraps `(1023 + 1) % 1024 = 0` — it
returns to zero with no `clear_buffer` call. -/
theorem apu_buffer_pos_wrap_cex :
    apuWrap.buffer_pos = 1023 ∧ (Apu.step apuWrap).map Apu.buffer_pos = some 0 :=
  ⟨rfl, rfl⟩

/-- C8 amended: `clear_buffer` sets the buffer position to zero, and
every sample emission advances it to `(buffer_pos + 1) % 1024` — so it
also returns to zero implicitly whenever a sample is written at
position 1023; a `step` either leaves it unchanged or advances it the
same way. -/
theorem apu_buffer_pos_spec :
    (∀ a : Apu, a.clear_buffer.buffer_pos = 0) ∧
    (∀ a a' : Apu, Apu.generate_sample a = some a' →
      a'.buffer_pos = (a.buffer_pos + 1) % BUFFER_SIZE) ∧
    (∀ a a' : Apu, Apu.step a = some a' →
      a'.buffer_pos = a.buffer_pos ∨ a'.buffer_pos = (a.buffer_pos + 1) % BUFFER_SIZE) :=
  ⟨fun _ => rfl, gen_buffer_pos, step_buffer_pos⟩

/-- Witness for `apu_buffer_pos_spec`: one emission from `apuOff`
advances the buffer position from 5 to 6. -/
theorem apu_buffer_pos_spec_witness :
    apuOffNext.buffer_pos = (apuOff.buffer_pos + 1) % BUFFER_SIZE :=
  apu_buffer_pos_spec.2.1 apuOff apuOffNext rfl

/-- C9 counterexample: the freshly constructed noise channel has
`current_volume = 0`, so its first `get_sample` call returns without
updating the LFSR: bit 14 stays 1 while bit 0 XOR bit 1 of the prior
value is 0. -/
theorem noise_lfsr_volume_zero_cex :
    NoiseChannel.new.current_volume = 0 ∧
    ((NoiseChannel.new.get_sample).2).lfsr = NoiseChannel.new.lfsr ∧
    ¬ (((NoiseChannel.new.get_sample).2).lfsr.testBit 14 =
        (NoiseChannel.new.lfsr.testBit 0 ^^ NoiseChannel.new.lfsr.testBit 1)) :=
  ⟨rfl, rfl, by decide⟩

/-- C9 amended: for a noise channel seeded with LFSR `0x7FFF` whose
`current_volume` is nonzero (a `get_sample` call with volume 0 returns
early and leaves the LFSR untouched), after every emission bit 14 of
the LFSR equals bit 0 XOR bit 1 of the prior value, bit 0 equals the
prior bit 1, and in short-width mode bit 6 also equals the new bit —
and the relation holds after every subsequent emission. -/
theorem noise_lfsr_relation (c0 : NoiseChannel) (h0 : c0.lfsr = 0x7FFF)
    (hv : c0.current_volume ≠ 0) (n : Nat) :
    ((noiseIter (n + 1) c0).lfsr.testBit 14
       = ((noiseIter n c0).lfsr.testBit 0 ^^ (noiseIter n c0).lfsr.testBit 1)) ∧
    ((noiseIter (n + 1) c0).lfsr.testBit 0 = (noiseIter n c0).lfsr.testBit 1) ∧
    ((noiseIter n c0).width_mode = true →
      (noiseIter (n + 1) c0).lfsr.testBit 6
        = ((noiseIter n c0).lfsr.testBit 0 ^^ (noiseIter n c0).lfsr.testBit 1)) := by
  have hvn : (noiseIter n c0).current_volume ≠ 0 := by
    rw [noiseIter_vol]
    exact hv
  have hbn : (noiseIter n c0).lfsr < 2 ^ 15 :=
    noiseIter_bound n c0 (by rw [h0]; norm_num)
  rw [noiseIter_succ, noise_step_lfsr _ hvn]
  by_cases hw : (noiseIter n c0).width_mode
  · rw [if_pos hw]
    exact ⟨by rw [(width_mask_bits _ _).1, (lfsr_update_bits _ hbn).1],
      by rw [(width_mask_bits _ _).2.1, (lfsr_update_bits _ hbn).2],
      fun _ => by rw [(width_mask_bits _ _).2.2, new_bit_testBit]⟩
  · rw [if_neg hw]
    exact ⟨(lfsr_update_bits _ hbn).1, (lfsr_update_bits _ hbn).2,
      fun hww => absurd hww hw⟩

/-- Witness for `noise_lfsr_relation`: the seeded channel `noiseSeed`
at its first emission. -/
theorem noise_lfsr_relation_witness :
    ((noiseIter 1 noiseSeed).lfsr.testBit 14
       = ((noiseIter 0 noiseSeed).lfsr.testBit 0 ^^ (noiseIter 0 noiseSeed).lfsr.testBit 1)) ∧
    ((noiseIter 1 noiseSeed).lfsr.testBit 0 = (noiseIter 0 noiseSeed).lfsr.testBit 1) ∧
    ((noiseIter 0 noiseSeed).width_mode = true →
      (noiseIter 1 noiseSeed).lfsr.testBit 6
        = ((noiseIter 0 noiseSeed).lfsr.testBit 0 ^^ (noiseIter 0 noiseSeed).lfsr.testBit 1)) :=
  noise_lfsr_relation noiseSeed rfl (by decide) 0

/-- C10: `SquareChannel::get_sample` returns a sample for every phase,
frequency and volume provided `duty_cycle ≤ 3`; with `duty_cycle ≥ 4`
and nonzero `current_volume` the 4-entry duty table is indexed out of
bounds (a panic, `none` here). -/
theorem square_get_sample_safety (c : SquareChannel) :
    (c.duty_cycle ≤ 3 → (c.get_sample).isSome = true) ∧
    (4 ≤ c.duty_cycle → c.current_volume ≠ 0 → c.get_sample = none) := by
  obtain ⟨en, fr, duty, vol, ep, ed, len, le, ph, ec, cv⟩ := c
  constructor
  · intro h
    unfold SquareChannel.get_sample
    by_cases hv : cv = 0
    · rw [if_pos hv]
      rfl
    · rw [if_neg hv]
      interval_cases duty <;> rfl
  · intro h hv
    unfold SquareChannel.get_sample
    rw [if_neg hv]
    dsimp only
    have hn : ([0b00000001, 0b10000001, 0b10000111, 0b01111110] : List Nat).get? duty = none := by
      rw [List.get?_eq_none]
      simpa using h
    rw [hn]

/-- Witness for `square_get_sample_safety`: the fresh channel
(duty 0) samples successfully; `sqBad` (duty 4, volume 1) panics. -/
theorem square_get_sample_safety_witness :
    ((SquareChannel.new.get_sample).isSome = true) ∧ (sqBad.get_sample = none) :=
  ⟨(square_get_sample_safety SquareChannel.new).1 (by decide),
   (square_get_sample_safety sqBad).2 (by decide) (by decide)⟩

end GB
